import Mathlib

/-!
# Infinidesk: verification of the canvas, drawing and input core

A shallow embedding of the Infinidesk compositor's core state machines,
translated from the C sources (`src/canvas.c`, `src/drawing.c`,
`src/view.c`, `src/keyboard.c`, `src/config.c`, `src/switcher.c`,
`src/cursor.c`), together with theorems settling the specification's
claims about them.

C `double` values are modelled as rationals wherever the code only uses
field operations, and as real numbers where the code takes square roots
(the gather algorithm).  Wayland/wlroots plumbing (scene graph updates,
logging, texture upload) carries no canvas state and is not modelled.
-/

namespace Infinidesk

/-! ## Canvas state (src/include/infinidesk/canvas.h, struct infinidesk_canvas) -/

/-- The canvas state of `struct infinidesk_canvas`: viewport origin in canvas
coordinates, zoom scale, pan-drag working state, and the viewport snap
animation state.  The back-pointer to the server (used only to walk views for
scene-position updates) is plumbing and not modelled. -/
structure Canvas where
  viewport_x : ℚ
  viewport_y : ℚ
  scale : ℚ
  is_panning : Bool
  pan_start_cursor_x : ℚ
  pan_start_cursor_y : ℚ
  pan_start_viewport_x : ℚ
  pan_start_viewport_y : ℚ
  snap_anim_active : Bool
  snap_anim_start_ms : ℕ
  snap_start_x : ℚ
  snap_start_y : ℚ
  snap_target_x : ℚ
  snap_target_y : ℚ
  deriving DecidableEq, Repr

/-- `#define ZOOM_MIN 0.1` (src/canvas.c). -/
def ZOOM_MIN : ℚ := 1/10

/-- `#define ZOOM_MAX 4.0` (src/canvas.c). -/
def ZOOM_MAX : ℚ := 4

/-- `#define CANVAS_SNAP_DURATION_MS 800` (include/infinidesk/canvas.h). -/
def CANVAS_SNAP_DURATION_MS : ℕ := 800

/-- `canvas_to_screen` (src/canvas.c): `screen = (canvas - viewport) * scale`. -/
def canvas_to_screen (c : Canvas) (canvas_x canvas_y : ℚ) : ℚ × ℚ :=
  ((canvas_x - c.viewport_x) * c.scale,
   (canvas_y - c.viewport_y) * c.scale)

/-- `screen_to_canvas` (src/canvas.c): `canvas = screen / scale + viewport`. -/
def screen_to_canvas (c : Canvas) (screen_x screen_y : ℚ) : ℚ × ℚ :=
  (screen_x / c.scale + c.viewport_x,
   screen_y / c.scale + c.viewport_y)

/-- The clamp performed at the top of `canvas_zoom` (src/canvas.c):
`new_scale = scale * factor`, then `if (new_scale < ZOOM_MIN) new_scale =
ZOOM_MIN; else if (new_scale > ZOOM_MAX) new_scale = ZOOM_MAX;`. -/
def clamped_scale (scale factor : ℚ) : ℚ :=
  let new_scale := scale * factor
  if new_scale < ZOOM_MIN then ZOOM_MIN
  else if ZOOM_MAX < new_scale then ZOOM_MAX
  else new_scale

/-- `canvas_zoom` (src/canvas.c): clamp the new scale; return unchanged if it
equals the current scale; otherwise record the canvas point under the focus
before the change, apply the new scale, and set
`viewport = canvas_focus - focus / new_scale`. -/
def canvas_zoom (c : Canvas) (factor focus_x focus_y : ℚ) : Canvas :=
  let new_scale := clamped_scale c.scale factor
  if new_scale = c.scale then c
  else
    let canvas_focus := screen_to_canvas c focus_x focus_y
    { c with
      scale := new_scale,
      viewport_x := canvas_focus.1 - focus_x / new_scale,
      viewport_y := canvas_focus.2 - focus_y / new_scale }

/-- `canvas_pan_begin` (src/canvas.c). -/
def canvas_pan_begin (c : Canvas) (cursor_x cursor_y : ℚ) : Canvas :=
  { c with
    is_panning := true,
    pan_start_cursor_x := cursor_x,
    pan_start_cursor_y := cursor_y,
    pan_start_viewport_x := c.viewport_x,
    pan_start_viewport_y := c.viewport_y }

/-- `canvas_pan_update` (src/canvas.c): viewport moves opposite to the
cursor delta, divided by the scale. -/
def canvas_pan_update (c : Canvas) (cursor_x cursor_y : ℚ) : Canvas :=
  if ¬ c.is_panning then c
  else
    { c with
      viewport_x := c.pan_start_viewport_x - (cursor_x - c.pan_start_cursor_x) / c.scale,
      viewport_y := c.pan_start_viewport_y - (cursor_y - c.pan_start_cursor_y) / c.scale }

/-- `canvas_pan_delta` (src/canvas.c). -/
def canvas_pan_delta (c : Canvas) (delta_x delta_y : ℚ) : Canvas :=
  { c with
    viewport_x := c.viewport_x - delta_x / c.scale,
    viewport_y := c.viewport_y - delta_y / c.scale }

/-- `canvas_get_viewport_centre` (src/canvas.c):
`screen_to_canvas(width/2, height/2)`. -/
def canvas_get_viewport_centre (c : Canvas) (output_width output_height : ℤ) : ℚ × ℚ :=
  screen_to_canvas c ((output_width : ℚ) / 2) ((output_height : ℚ) / 2)

/-- Clamp a rational to `[0, 1]`, as the spec's `clamp((now − start)/800, 0, 1)`. -/
def clamp01 (t : ℚ) : ℚ :=
  if t < 0 then 0 else if 1 < t then 1 else t

/-- Ease-out cubic `f(t) = 1 - (1 - t)^3` (src/view.c `ease_out_cubic`,
also prescribed by the spec for the snap animation). -/
def ease_out_cubic (t : ℚ) : ℚ := 1 - (1 - t)^3

/-- Linear interpolation `a + (b - a) * t` (src/view.c `lerp_d`). -/
def lerp_d (a b t : ℚ) : ℚ := a + (b - a) * t

/-- Modelled from the spec: `canvas_update_snap_animation` is declared in
include/infinidesk/canvas.h (line 144) and called each frame from
src/output.c (line 187), but its definition is not among the repository's
source files.  Spec §4.A: duration fixed at 800 ms; progress
`t = clamp((now − start)/800, 0, 1)`; ease-out cubic `1 − (1−t)³`;
`viewport = lerp(start, target, eased)`; when `t = 1`, `active := false`.
(The subsequent scene-position update of every view is wlroots plumbing.) -/
def canvas_update_snap_animation (c : Canvas) (time_ms : ℕ) : Canvas :=
  if ¬ c.snap_anim_active then c
  else
    let t := clamp01 (((time_ms : ℚ) - (c.snap_anim_start_ms : ℚ)) / (CANVAS_SNAP_DURATION_MS : ℚ))
    let eased := ease_out_cubic t
    { c with
      viewport_x := lerp_d c.snap_start_x c.snap_target_x eased,
      viewport_y := lerp_d c.snap_start_y c.snap_target_y eased,
      snap_anim_active := if t = 1 then false else true }

/-- A canvas state as `canvas_init` leaves it: viewport at the origin,
scale 1, no pan, no snap animation (src/canvas.c `canvas_init`). -/
def canvas_initial : Canvas :=
  { viewport_x := 0, viewport_y := 0, scale := 1,
    is_panning := false,
    pan_start_cursor_x := 0, pan_start_cursor_y := 0,
    pan_start_viewport_x := 0, pan_start_viewport_y := 0,
    snap_anim_active := false, snap_anim_start_ms := 0,
    snap_start_x := 0, snap_start_y := 0,
    snap_target_x := 0, snap_target_y := 0 }

/-! ## Drawing layer (src/drawing.c, include/infinidesk/drawing.h) -/

/-- `struct drawing_color` (include/infinidesk/drawing_ui.h). -/
structure DrawingColor where
  r : ℚ
  g : ℚ
  b : ℚ
  deriving DecidableEq, Repr

/-- `#define COLOR_RED ((struct drawing_color){1.0f, 0.2f, 0.2f})`. -/
def COLOR_RED : DrawingColor := ⟨1, 1/5, 1/5⟩

/-- `struct drawing_point`: a point in canvas coordinates. -/
structure DrawingPoint where
  x : ℚ
  y : ℚ
  deriving DecidableEq, Repr

/-- `struct drawing_stroke`: an ordered list of points (oldest first, as
`wl_list_for_each` iterates it) plus the stroke's colour. -/
structure DrawingStroke where
  points : List DrawingPoint
  color : DrawingColor
  deriving DecidableEq, Repr

/-- `struct drawing_layer` (include/infinidesk/drawing.h), without the server
back-pointer and the UI panel hover state, which no drawing operation below
reads or writes.  Both stroke lists are kept in `wl_list` iteration order
(head first); the C code appends at `list.prev`, i.e. at the list tail. -/
structure DrawingLayer where
  drawing_mode : Bool
  is_drawing : Bool
  strokes : List DrawingStroke
  redo_stack : List DrawingStroke
  current_stroke : Option DrawingStroke
  last_canvas_x : ℚ
  last_canvas_y : ℚ
  current_color : DrawingColor
  deriving DecidableEq, Repr

/-- `#define MIN_POINT_DISTANCE 2.0` (src/drawing.c). -/
def MIN_POINT_DISTANCE : ℚ := 2

/-- `drawing_init` (src/drawing.c). -/
def drawing_init : DrawingLayer :=
  { drawing_mode := false, is_drawing := false,
    strokes := [], redo_stack := [], current_stroke := none,
    last_canvas_x := 0, last_canvas_y := 0, current_color := COLOR_RED }

/-- `drawing_undo_last` (src/drawing.c): while drawing, discard the
in-progress stroke; otherwise pop the tail of `strokes` (the newest
committed stroke, `strokes.prev`) and push it at the tail of `redo_stack`
(`wl_list_insert(redo_stack.prev, ...)`); no-op when `strokes` is empty. -/
def drawing_undo_last (d : DrawingLayer) : DrawingLayer :=
  if d.is_drawing ∧ d.current_stroke.isSome then
    { d with current_stroke := none, is_drawing := false }
  else
    match d.strokes.getLast? with
    | none => d
    | some stroke =>
        { d with
          strokes := d.strokes.dropLast,
          redo_stack := d.redo_stack ++ [stroke] }

/-- `drawing_redo_last` (src/drawing.c): pop the tail of `redo_stack`
(`redo_stack.prev`) and push it at the tail of `strokes`; no-op when the
redo stack is empty. -/
def drawing_redo_last (d : DrawingLayer) : DrawingLayer :=
  match d.redo_stack.getLast? with
  | none => d
  | some stroke =>
      { d with
        redo_stack := d.redo_stack.dropLast,
        strokes := d.strokes ++ [stroke] }

/-- `drawing_clear_all` (src/drawing.c). -/
def drawing_clear_all (d : DrawingLayer) : DrawingLayer :=
  { d with strokes := [], redo_stack := [],
           current_stroke := none, is_drawing := false }

/-- `drawing_stroke_begin` (src/drawing.c): no-op unless `drawing_mode`;
creates a stroke carrying the current colour with the given first point,
sets `is_drawing` and `last_canvas_pos`.  (Allocation failure paths are
not modelled.) -/
def drawing_stroke_begin (d : DrawingLayer) (canvas_x canvas_y : ℚ) : DrawingLayer :=
  if ¬ d.drawing_mode then d
  else
    { d with
      current_stroke := some { points := [⟨canvas_x, canvas_y⟩], color := d.current_color },
      is_drawing := true,
      last_canvas_x := canvas_x,
      last_canvas_y := canvas_y }

/-- `drawing_stroke_add_point` (src/drawing.c): no-op unless a stroke is in
progress; appends the point at the stroke's tail only when it is at least
`MIN_POINT_DISTANCE` away from `last_canvas_pos`, updating `last_canvas_pos`
on append.  The C code compares `sqrt(dx*dx + dy*dy) < MIN_POINT_DISTANCE`;
over the nonnegative radicand this is exactly
`dx^2 + dy^2 < MIN_POINT_DISTANCE^2`, the form used here so that the state
stays rational. -/
def drawing_stroke_add_point (d : DrawingLayer) (canvas_x canvas_y : ℚ) : DrawingLayer :=
  if ¬ (d.is_drawing ∧ d.current_stroke.isSome) then d
  else
    let dx := canvas_x - d.last_canvas_x
    let dy := canvas_y - d.last_canvas_y
    if dx * dx + dy * dy < MIN_POINT_DISTANCE ^ 2 then d
    else
      match d.current_stroke with
      | none => d
      | some stroke =>
          { d with
            current_stroke := some { stroke with points := stroke.points ++ [⟨canvas_x, canvas_y⟩] },
            last_canvas_x := canvas_x,
            last_canvas_y := canvas_y }

/-- `drawing_stroke_end` (src/drawing.c): no-op unless a stroke is in
progress; discards the stroke when it has fewer than 2 points (the counting
loop stops at 2, so the test is exactly `points.length < 2`), otherwise
appends it at the tail of `strokes` and destroys every stroke of the redo
stack; in both cases clears `current_stroke` and `is_drawing`. -/
def drawing_stroke_end (d : DrawingLayer) : DrawingLayer :=
  if ¬ (d.is_drawing ∧ d.current_stroke.isSome) then d
  else
    match d.current_stroke with
    | none => d
    | some stroke =>
        if stroke.points.length < 2 then
          { d with current_stroke := none, is_drawing := false }
        else
          { d with
            strokes := d.strokes ++ [stroke],
            redo_stack := [],
            current_stroke := none,
            is_drawing := false }

/-- `drawing_toggle_mode` (src/drawing.c): flip `drawing_mode`; when
disabling while a stroke is in progress, end that stroke first. -/
def drawing_toggle_mode (d : DrawingLayer) : DrawingLayer :=
  let d1 := { d with drawing_mode := ¬ d.drawing_mode }
  if ¬ d1.drawing_mode ∧ d1.is_drawing then drawing_stroke_end d1 else d1

/-- The drawing-layer operations a caller can invoke (src/drawing.c public
entry points that touch the stroke lists). -/
inductive DrawOp
  | toggle_mode
  | clear_all
  | undo_last
  | redo_last
  | stroke_begin (x y : ℚ)
  | stroke_add_point (x y : ℚ)
  | stroke_end
  deriving DecidableEq, Repr

/-- Dispatch a `DrawOp` to the corresponding src/drawing.c operation. -/
def applyDrawOp (d : DrawingLayer) : DrawOp → DrawingLayer
  | .toggle_mode => drawing_toggle_mode d
  | .clear_all => drawing_clear_all d
  | .undo_last => drawing_undo_last d
  | .redo_last => drawing_redo_last d
  | .stroke_begin x y => drawing_stroke_begin d x y
  | .stroke_add_point x y => drawing_stroke_add_point d x y
  | .stroke_end => drawing_stroke_end d

/-- Every stroke in `strokes` and in `redo_stack` has at least two points. -/
def StrokesWellFormed (d : DrawingLayer) : Prop :=
  (∀ s ∈ d.strokes, 2 ≤ s.points.length) ∧
  (∀ s ∈ d.redo_stack, 2 ≤ s.points.length)

/-! ## Keybinding dispatch (src/keyboard.c, src/config.c)

`keyboard_handle_key` computes `(modifiers, keysym)` for a press and calls
`keyboard_handle_keybinding`; when that returns false the key is forwarded
to the focused client via the seat.  `keyboard_handle_keybinding`
(src/keyboard.c lines 152-222) is a hardcoded switch: it requires the Alt
modifier and recognises only Return/KP_Enter, q/Q, Escape, d/D, c/C and
u/U.  It never reads the keybind table that src/config.c parses and
src/main.c (lines 104-113) transfers onto the server. -/

/-- Modifier bit masks, from wlroots `enum wlr_keyboard_modifier`. -/
def WLR_MODIFIER_SHIFT : ℕ := 1
def WLR_MODIFIER_CTRL : ℕ := 4
def WLR_MODIFIER_ALT : ℕ := 8
def WLR_MODIFIER_LOGO : ℕ := 64

/-- XKB keysym values, from xkbcommon-keysyms.h. -/
def XKB_KEY_Return : ℕ := 0xff0d
def XKB_KEY_KP_Enter : ℕ := 0xff8d
def XKB_KEY_Escape : ℕ := 0xff1b
def XKB_KEY_Tab : ℕ := 0xff09
def XKB_KEY_q : ℕ := 0x71
def XKB_KEY_Q : ℕ := 0x51
def XKB_KEY_d : ℕ := 0x64
def XKB_KEY_D : ℕ := 0x44
def XKB_KEY_c : ℕ := 0x63
def XKB_KEY_C : ℕ := 0x43
def XKB_KEY_u : ℕ := 0x75
def XKB_KEY_U : ℕ := 0x55
def XKB_KEY_r : ℕ := 0x72
def XKB_KEY_g : ℕ := 0x67

/-- The compositor actions the configuration recognises (spec §3 Keybind;
src/config.c values) together with the terminal launch that
keyboard_handle_keybinding performs for Return. -/
inductive KeybindAction
  | launch_terminal
  | close_window
  | exit_compositor
  | toggle_drawing
  | clear_drawings
  | undo_stroke
  | redo_stroke
  | gather_windows
  | window_switcher
  deriving DecidableEq, Repr

/-- `enum keybind_type` (include/infinidesk/config.h): `ACTION` or `EXEC`. -/
inductive KeybindKind
  | action
  | exec
  deriving DecidableEq, Repr

/-- `struct keybind` (include/infinidesk/config.h): modifier mask, keysym,
kind and the configured value string. -/
structure Keybind where
  modifiers : ℕ
  key : ℕ
  kind : KeybindKind
  value : String
  deriving DecidableEq, Repr

/-- The default keybind table `config_set_default_keybinds` builds
(src/config.c lines 596-637), with the chord strings resolved through
`parse_keybind_key_string` exactly as the parser would: every token before
the last is a modifier name and the last is an XKB keysym name. -/
def default_keybinds : List Keybind :=
  [ ⟨WLR_MODIFIER_LOGO, XKB_KEY_Return, .exec, "kitty"⟩,
    ⟨WLR_MODIFIER_LOGO, XKB_KEY_q, .action, "close_window"⟩,
    ⟨WLR_MODIFIER_LOGO, XKB_KEY_Escape, .action, "exit"⟩,
    ⟨WLR_MODIFIER_LOGO, XKB_KEY_d, .action, "toggle_drawing"⟩,
    ⟨WLR_MODIFIER_LOGO, XKB_KEY_c, .action, "clear_drawings"⟩,
    ⟨WLR_MODIFIER_LOGO, XKB_KEY_u, .action, "undo_stroke"⟩,
    ⟨WLR_MODIFIER_LOGO, XKB_KEY_r, .action, "redo_stroke"⟩,
    ⟨WLR_MODIFIER_LOGO, XKB_KEY_g, .action, "gather_windows"⟩,
    ⟨WLR_MODIFIER_ALT, XKB_KEY_Tab, .action, "window_switcher"⟩ ]

/-- `keyboard_handle_keybinding` (src/keyboard.c lines 152-222), as the
action it dispatches: `none` means it returns false and
`keyboard_handle_key` forwards the press to the focused client.  The
function takes only the modifier mask and the keysym; the server's keybind
table is not among its inputs, mirroring the C function, which never reads
`server->keybinds`. -/
def keyboard_handle_keybinding (modifiers sym : ℕ) : Option KeybindAction :=
  if modifiers &&& WLR_MODIFIER_ALT = 0 then none
  else if sym = XKB_KEY_Return ∨ sym = XKB_KEY_KP_Enter then some .launch_terminal
  else if sym = XKB_KEY_q ∨ sym = XKB_KEY_Q then some .close_window
  else if sym = XKB_KEY_Escape then some .exit_compositor
  else if sym = XKB_KEY_d ∨ sym = XKB_KEY_D then some .toggle_drawing
  else if sym = XKB_KEY_c ∨ sym = XKB_KEY_C then some .clear_drawings
  else if sym = XKB_KEY_u ∨ sym = XKB_KEY_U then some .undo_stroke
  else none

/-! ## View lifecycle and weak references (src/view.c, src/switcher.c)

The server owns a front-to-back list of views; the switcher
(src/switcher.c) holds a `selected` pointer into it and the cursor grab
state (server.h) holds `grabbed_view`.  `handle_unmap` (src/view.c lines
569-594) ends a pending move, clears `grabbed_view` (resetting the cursor
mode), and resets the map animation.  `handle_destroy` (lines 596-603)
calls `view_destroy` (lines 147-164), which removes the view from the
server's list, removes its listeners and frees it — and touches nothing
else. -/

/-- `enum infinidesk_cursor_mode` (include/infinidesk/server.h), plus the
DRAW state that src/cursor.c assigns while a stroke is drawn. -/
inductive CursorMode
  | passthrough
  | move
  | pan
  | draw
  | resize
  deriving DecidableEq, Repr

/-- The per-view state that unmap/destroy touch: identity, move grab and
map animation (struct infinidesk_view, include/infinidesk/view.h). -/
structure ViewState where
  id : ℕ
  is_moving : Bool
  map_animation : ℚ
  is_animating_out : Bool
  deriving DecidableEq, Repr

/-- The server state relevant to view teardown: the view list
(front-to-back), the cursor grab, and the switcher's activation and
selection (struct infinidesk_server + struct infinidesk_switcher).  The
pointers `grabbed_view` and `selected` are modelled by the referenced
view's id. -/
structure ServerViews where
  views : List ViewState
  grabbed_view : Option ℕ
  cursor_mode : CursorMode
  switcher_active : Bool
  switcher_selected : Option ℕ
  deriving DecidableEq, Repr

/-- `handle_unmap` (src/view.c lines 569-594): end a pending move
(`is_moving := false`), clear the cursor grab when it points at this view
(resetting the mode to PASSTHROUGH), and reset the map animation. -/
def handle_unmap (s : ServerViews) (vid : ℕ) : ServerViews :=
  let s1 := { s with
    views := s.views.map (fun v =>
      if v.id = vid then
        { v with is_moving := false, map_animation := 0, is_animating_out := false }
      else v) }
  if s.grabbed_view = some vid then
    { s1 with grabbed_view := none, cursor_mode := .passthrough }
  else s1

/-- `view_destroy` (src/view.c lines 147-164), as `handle_destroy` invokes
it: remove the view from the server's list (`wl_list_remove(&view->link)`),
remove its listeners and free it.  No other server state is written; in
particular neither `grabbed_view` nor the switcher's `selected` is
examined. -/
def view_destroy (s : ServerViews) (vid : ℕ) : ServerViews :=
  { s with views := s.views.filter (fun v => v.id ≠ vid) }

/-! ## Gather (src/view.c `views_gather`, lines 345-506)

Gather takes square roots, so this part of the embedding lives over `ℝ`.
The per-view body is `gather_move_view`; `views_gather` computes the
centroid of all view centres and maps the body over the list, and
`views_gather_snap_target` is the viewport snap target the tail of the C
function computes from the recomputed centroid (the function also stores
the current viewport as `snap_start` and sets `snap_anim_active`, and
computes a viewport centre it never uses; neither affects the target). -/

/-- A view as `views_gather` sees it: canvas position `(x, y)` and the
geometry size reported by `wlr_xdg_surface_get_geometry` (integer width
and height). -/
structure GView where
  x : ℝ
  y : ℝ
  w : ℤ
  h : ℤ

/-- The loop body of `views_gather` (src/view.c lines 390-462) for one view:
contract the view's centre halfway toward the centroid, clamped so that the
centre stays at least `edge_distance + minimum_gap` away, where
`edge_distance` is the bounding-box intersection along the unit direction.
The C code sets `t_x`/`t_y` to `INFINITY` when `fabs(dir)` is at most
0.001 and takes `fmin(t_x, t_y)`; the if-chain below reproduces that
(`fmin` with one infinite argument returns the other).  Both components of
a unit direction cannot be ≤ 0.001 at once, so the branch in which both
would be infinite is unreachable; it is given the value 0. -/
noncomputable def gather_move_view (centroid_x centroid_y minimum_gap : ℝ) (v : GView) : GView :=
  let view_center_x := v.x + (v.w : ℝ) / 2
  let view_center_y := v.y + (v.h : ℝ) / 2
  let vec_x := view_center_x - centroid_x
  let vec_y := view_center_y - centroid_y
  let current_distance := Real.sqrt (vec_x * vec_x + vec_y * vec_y)
  let half_width := (v.w : ℝ) / 2
  let half_height := (v.h : ℝ) / 2
  let min_distance :=
    if current_distance < 1/1000 then (0 : ℝ)
    else
      let dir_x := vec_x / current_distance
      let dir_y := vec_y / current_distance
      let edge_distance :=
        if 1/1000 < |dir_x| then
          if 1/1000 < |dir_y| then min (half_width / |dir_x|) (half_height / |dir_y|)
          else half_width / |dir_x|
        else if 1/1000 < |dir_y| then half_height / |dir_y|
        else 0
      edge_distance + minimum_gap
  let scale_factor : ℝ := 1/2
  let new_distance0 := current_distance * scale_factor
  let new_distance := if new_distance0 < min_distance then min_distance else new_distance0
  let effective_scale := if 1/1000 < current_distance then new_distance / current_distance else 1
  let new_center_x := centroid_x + vec_x * effective_scale
  let new_center_y := centroid_y + vec_y * effective_scale
  { v with x := new_center_x - (v.w : ℝ) / 2, y := new_center_y - (v.h : ℝ) / 2 }

/-- `views_gather` without the viewport animation (src/view.c lines
345-462): return unchanged on an empty list (`wl_list_empty` guard),
compute the centroid of all view centres, and move every view with the
loop body. -/
noncomputable def views_gather (views : List GView) (minimum_gap : ℝ) : List GView :=
  if views.isEmpty then views
  else
    let count : ℕ := views.length
    let centroid_x := (views.map (fun v => v.x + (v.w : ℝ) / 2)).sum / (count : ℝ)
    let centroid_y := (views.map (fun v => v.y + (v.h : ℝ) / 2)).sum / (count : ℝ)
    views.map (gather_move_view centroid_x centroid_y minimum_gap)

/-- The snap target `views_gather` installs (src/view.c lines 464-500):
recompute the centroid of the moved views and aim the viewport so that the
centroid lands at the screen centre:
`target = new_centroid - (screen/2) / scale`. -/
noncomputable def views_gather_snap_target (views : List GView) (minimum_gap scale : ℝ)
    (screen_width screen_height : ℤ) : ℝ × ℝ :=
  let moved := views_gather views minimum_gap
  let count : ℕ := views.length
  let new_centroid_x := (moved.map (fun v => v.x + (v.w : ℝ) / 2)).sum / (count : ℝ)
  let new_centroid_y := (moved.map (fun v => v.y + (v.h : ℝ) / 2)).sum / (count : ℝ)
  (new_centroid_x - ((screen_width : ℝ) / 2) / scale,
   new_centroid_y - ((screen_height : ℝ) / 2) / scale)


/-! ## Theorems settling the claims -/

/-! ### Helper lemmas about the clamped scale -/

theorem ZOOM_MIN_le_clamped_scale (s f : ℚ) : ZOOM_MIN ≤ clamped_scale s f := by
  unfold clamped_scale ZOOM_MIN ZOOM_MAX
  simp only
  split
  · norm_num
  · split
    · norm_num
    · linarith [not_lt.mp (by assumption : ¬ s * f < (1:ℚ)/10)]

theorem clamped_scale_ne_zero (s f : ℚ) : clamped_scale s f ≠ 0 := by
  have h := ZOOM_MIN_le_clamped_scale s f
  unfold ZOOM_MIN at h
  intro hz
  rw [hz] at h
  norm_num at h

/-! ### Claim C1: zoom clamps the scale and keeps the focus point fixed -/

/-- C1.  After `zoom(factor, focus_screen)` the scale equals
`clamp(old_scale * factor, 0.1, 4.0)`; if the clamped scale equals the old
scale the whole state is unchanged; otherwise the viewport is set to
`canvas_focus - focus_screen / new_scale` with `canvas_focus` evaluated
before the change, so the canvas point that was under the focus screen
point is mapped back to exactly the focus screen point afterwards. -/
theorem canvas_zoom_clamps_and_fixes_focus (c : Canvas) (factor focus_x focus_y : ℚ) :
    (canvas_zoom c factor focus_x focus_y).scale = clamped_scale c.scale factor
    ∧ (clamped_scale c.scale factor = c.scale → canvas_zoom c factor focus_x focus_y = c)
    ∧ (clamped_scale c.scale factor ≠ c.scale →
        (canvas_zoom c factor focus_x focus_y).viewport_x
          = (screen_to_canvas c focus_x focus_y).1 - focus_x / clamped_scale c.scale factor
        ∧ (canvas_zoom c factor focus_x focus_y).viewport_y
          = (screen_to_canvas c focus_x focus_y).2 - focus_y / clamped_scale c.scale factor
        ∧ canvas_to_screen (canvas_zoom c factor focus_x focus_y)
            (screen_to_canvas c focus_x focus_y).1 (screen_to_canvas c focus_x focus_y).2
          = (focus_x, focus_y)) := by
  by_cases h : clamped_scale c.scale factor = c.scale
  · exact ⟨by simp [canvas_zoom, h], fun _ => by simp [canvas_zoom, h],
      fun hn => absurd h hn⟩
  · have hne := clamped_scale_ne_zero c.scale factor
    refine ⟨by simp [canvas_zoom, h], fun he => absurd he h,
      fun _ => ⟨by simp [canvas_zoom, h], by simp [canvas_zoom, h], ?_⟩⟩
    simp only [canvas_zoom, h, if_neg h, canvas_to_screen, screen_to_canvas,
      Prod.mk.injEq]
    constructor
    · field_simp
    · field_simp

/-! ### Claim C9: the coordinate maps are mutually inverse -/

/-- C9.  For canvas states whose scale lies in `[0.1, 4.0]`, the coordinate
maps `screen = (canvas - viewport) * scale` and
`canvas = screen / scale + viewport` invert each other exactly on every
point; the exact round trip in particular lands within the claimed
tolerance `1e-9 * max(|p|, 1)`. -/
theorem canvas_coordinate_maps_inverse (c : Canvas) (px py : ℚ)
    (hmin : ZOOM_MIN ≤ c.scale) (hmax : c.scale ≤ ZOOM_MAX) :
    canvas_to_screen c (screen_to_canvas c px py).1 (screen_to_canvas c px py).2 = (px, py)
    ∧ screen_to_canvas c (canvas_to_screen c px py).1 (canvas_to_screen c px py).2 = (px, py)
    ∧ |(canvas_to_screen c (screen_to_canvas c px py).1 (screen_to_canvas c px py).2).1 - px|
        ≤ 1/1000000000 * max |px| 1
    ∧ |(screen_to_canvas c (canvas_to_screen c px py).1 (canvas_to_screen c px py).2).2 - py|
        ≤ 1/1000000000 * max |py| 1 := by
  have hs : c.scale ≠ 0 := by
    unfold ZOOM_MIN at hmin
    intro h
    rw [h] at hmin
    norm_num at hmin
  have h1 : canvas_to_screen c (screen_to_canvas c px py).1 (screen_to_canvas c px py).2
      = (px, py) := by
    simp only [canvas_to_screen, screen_to_canvas, Prod.mk.injEq]
    constructor <;> field_simp <;> ring
  have h2 : screen_to_canvas c (canvas_to_screen c px py).1 (canvas_to_screen c px py).2
      = (px, py) := by
    simp only [canvas_to_screen, screen_to_canvas, Prod.mk.injEq]
    constructor <;> field_simp <;> ring
  refine ⟨h1, h2, ?_, ?_⟩
  · rw [h1]
    simp only [sub_self, abs_zero]
    positivity
  · rw [h2]
    simp only [sub_self, abs_zero]
    positivity

/-- Witness for C9 at the spec's scenario 1 state: scale 1, viewport at the
origin, point `(400, 300)`. -/
theorem canvas_coordinate_maps_inverse_witness :
    canvas_to_screen canvas_initial
        (screen_to_canvas canvas_initial 400 300).1
        (screen_to_canvas canvas_initial 400 300).2 = (400, 300)
    ∧ screen_to_canvas canvas_initial
        (canvas_to_screen canvas_initial 400 300).1
        (canvas_to_screen canvas_initial 400 300).2 = (400, 300) := by
  have h := canvas_coordinate_maps_inverse canvas_initial 400 300
    (by norm_num [canvas_initial, ZOOM_MIN]) (by norm_num [canvas_initial, ZOOM_MAX])
  exact ⟨h.1, h.2.1⟩

/-! ### Claim C2: the snap animation is an 800 ms ease-out cubic -/

theorem clamp01_of_one_le {t : ℚ} (h : 1 ≤ t) : clamp01 t = 1 := by
  unfold clamp01
  split
  · linarith
  · split
    · rfl
    · linarith [not_lt.mp (by assumption : ¬ 1 < t)]

theorem ease_out_cubic_one : ease_out_cubic 1 = 1 := by
  unfold ease_out_cubic
  ring

theorem lerp_d_one (a b : ℚ) : lerp_d a b 1 = b := by
  unfold lerp_d
  ring

/-- C2.  For every active snap, a tick at time `now` sets the viewport to
`lerp(start, target, 1 - (1 - t)^3)` with `t = clamp((now - start)/800, 0, 1)`,
and a tick at `start + 800` ms or later lands the viewport exactly on the
target and clears the active flag. -/
theorem snap_animation_eases_and_completes (c : Canvas) (now : ℕ)
    (h : c.snap_anim_active = true) :
    (canvas_update_snap_animation c now).viewport_x
      = lerp_d c.snap_start_x c.snap_target_x
          (ease_out_cubic (clamp01 (((now : ℚ) - (c.snap_anim_start_ms : ℚ)) / 800)))
    ∧ (canvas_update_snap_animation c now).viewport_y
      = lerp_d c.snap_start_y c.snap_target_y
          (ease_out_cubic (clamp01 (((now : ℚ) - (c.snap_anim_start_ms : ℚ)) / 800)))
    ∧ (c.snap_anim_start_ms + 800 ≤ now →
        (canvas_update_snap_animation c now).viewport_x = c.snap_target_x
        ∧ (canvas_update_snap_animation c now).viewport_y = c.snap_target_y
        ∧ (canvas_update_snap_animation c now).snap_anim_active = false) := by
  have hdur : (CANVAS_SNAP_DURATION_MS : ℚ) = 800 := by norm_num [CANVAS_SNAP_DURATION_MS]
  refine ⟨?_, ?_, fun hlate => ?_⟩
  · simp [canvas_update_snap_animation, h, hdur]
  · simp [canvas_update_snap_animation, h, hdur]
  · have hq : (1 : ℚ) ≤ ((now : ℚ) - (c.snap_anim_start_ms : ℚ)) / 800 := by
      rw [le_div_iff (by norm_num : (0:ℚ) < 800)]
      have : ((c.snap_anim_start_ms : ℚ)) + 800 ≤ (now : ℚ) := by
        exact_mod_cast hlate
      linarith
    have ht := clamp01_of_one_le hq
    refine ⟨?_, ?_, ?_⟩ <;>
      simp [canvas_update_snap_animation, h, hdur, ht, ease_out_cubic_one, lerp_d_one]

/-- Witness for C2: a snap from viewport `(0, 0)` toward target `(200, 50)`
started at time 0, ticked at 800 ms, lands on the target, inactive. -/
theorem snap_animation_eases_and_completes_witness :
    (canvas_update_snap_animation
        { canvas_initial with
            snap_anim_active := true, snap_anim_start_ms := 0,
            snap_start_x := 0, snap_start_y := 0,
            snap_target_x := 200, snap_target_y := 50 } 800).viewport_x = 200
    ∧ (canvas_update_snap_animation
        { canvas_initial with
            snap_anim_active := true, snap_anim_start_ms := 0,
            snap_start_x := 0, snap_start_y := 0,
            snap_target_x := 200, snap_target_y := 50 } 800).snap_anim_active = false := by
  have h := snap_animation_eases_and_completes
    { canvas_initial with
        snap_anim_active := true, snap_anim_start_ms := 0,
        snap_start_x := 0, snap_start_y := 0,
        snap_target_x := 200, snap_target_y := 50 } 800 (by rfl)
  have h800 := h.2.2 (by norm_num)
  exact ⟨h800.1, h800.2.2⟩

/-! ### Claim C6: undo and redo are mutually inverse tail moves -/

/-- C6.  On a state that is not mid-stroke, `undo_last` moves the tail of
`strokes` to the tail of `redo_stack` and `redo_last` moves the tail of
`redo_stack` back to the tail of `strokes`; consequently, whenever the
respective moves are defined, `redo_last` after `undo_last` and `undo_last`
after `redo_last` each restore the exact original state. -/
theorem undo_redo_inverse (d : DrawingLayer) (h : d.is_drawing = false) :
    (∀ s, d.strokes.getLast? = some s →
        drawing_undo_last d
          = { d with strokes := d.strokes.dropLast,
                     redo_stack := d.redo_stack ++ [s] })
    ∧ (∀ s, d.redo_stack.getLast? = some s →
        drawing_redo_last d
          = { d with redo_stack := d.redo_stack.dropLast,
                     strokes := d.strokes ++ [s] })
    ∧ (d.strokes ≠ [] → drawing_redo_last (drawing_undo_last d) = d)
    ∧ (d.redo_stack ≠ [] → drawing_undo_last (drawing_redo_last d) = d) := by
  have hundo : ∀ s, d.strokes.getLast? = some s →
      drawing_undo_last d
        = { d with strokes := d.strokes.dropLast,
                   redo_stack := d.redo_stack ++ [s] } := by
    intro s hs
    simp [drawing_undo_last, h, hs]
  have hredo : ∀ s, d.redo_stack.getLast? = some s →
      drawing_redo_last d
        = { d with redo_stack := d.redo_stack.dropLast,
                   strokes := d.strokes ++ [s] } := by
    intro s hs
    simp [drawing_redo_last, hs]
  refine ⟨hundo, hredo, fun hne => ?_, fun hne => ?_⟩
  · have hs : d.strokes.getLast? = some (d.strokes.getLast hne) :=
      List.getLast?_eq_getLast d.strokes hne
    rw [hundo _ hs]
    rw [drawing_redo_last]
    simp only [List.getLast?_concat, List.dropLast_concat,
      List.dropLast_append_getLast hne]
  · have hs : d.redo_stack.getLast? = some (d.redo_stack.getLast hne) :=
      List.getLast?_eq_getLast d.redo_stack hne
    rw [hredo _ hs]
    rw [drawing_undo_last]
    simp only [h, Bool.false_eq_true, false_and, if_false, List.getLast?_concat,
      List.dropLast_concat, List.dropLast_append_getLast hne]
    rw [← h]

/-- Witness for C6: a state holding one committed stroke and one undone
stroke; both round trips restore it. -/
theorem undo_redo_inverse_witness :
    drawing_redo_last (drawing_undo_last
      { drawing_init with
          strokes := [{ points := [⟨0, 0⟩, ⟨3, 0⟩], color := COLOR_RED }],
          redo_stack := [{ points := [⟨5, 5⟩, ⟨9, 5⟩], color := COLOR_RED }] })
      = { drawing_init with
          strokes := [{ points := [⟨0, 0⟩, ⟨3, 0⟩], color := COLOR_RED }],
          redo_stack := [{ points := [⟨5, 5⟩, ⟨9, 5⟩], color := COLOR_RED }] }
    ∧ drawing_undo_last (drawing_redo_last
      { drawing_init with
          strokes := [{ points := [⟨0, 0⟩, ⟨3, 0⟩], color := COLOR_RED }],
          redo_stack := [{ points := [⟨5, 5⟩, ⟨9, 5⟩], color := COLOR_RED }] })
      = { drawing_init with
          strokes := [{ points := [⟨0, 0⟩, ⟨3, 0⟩], color := COLOR_RED }],
          redo_stack := [{ points := [⟨5, 5⟩, ⟨9, 5⟩], color := COLOR_RED }] } := by
  have h := undo_redo_inverse
    { drawing_init with
        strokes := [{ points := [⟨0, 0⟩, ⟨3, 0⟩], color := COLOR_RED }],
        redo_stack := [{ points := [⟨5, 5⟩, ⟨9, 5⟩], color := COLOR_RED }] } rfl
  exact ⟨h.2.2.1 (by decide), h.2.2.2 (by decide)⟩

/-! ### Claim C10: undo on an empty history is a safe no-op -/

/-- C10.  When no stroke is in progress and the committed stroke list is
empty, `undo_last` returns the state entirely unchanged (all fields,
palette included). -/
theorem undo_on_empty_history_noop (d : DrawingLayer)
    (h1 : d.is_drawing = false) (h2 : d.strokes = []) :
    drawing_undo_last d = d := by
  simp [drawing_undo_last, h1, h2]

/-- Witness for C10 at the freshly initialised drawing state. -/
theorem undo_on_empty_history_noop_witness :
    drawing_undo_last drawing_init = drawing_init :=
  undo_on_empty_history_noop drawing_init rfl rfl

/-! ### Claim C7: committed strokes have at least two points -/

theorem stroke_end_preserves_wf (d : DrawingLayer) (hwf : StrokesWellFormed d) :
    StrokesWellFormed (drawing_stroke_end d) := by
  unfold drawing_stroke_end
  split
  · exact hwf
  · split
    · exact hwf
    · rename_i stroke heq
      split
      · exact hwf
      · rename_i hlen
        refine ⟨fun s hs => ?_, fun s hs => by simp at hs⟩
        rcases List.mem_append.mp hs with hmem | hmem
        · exact hwf.1 s hmem
        · rcases List.mem_singleton.mp hmem with rfl
          omega

theorem undo_preserves_wf (d : DrawingLayer) (hwf : StrokesWellFormed d) :
    StrokesWellFormed (drawing_undo_last d) := by
  unfold drawing_undo_last
  split
  · exact hwf
  · split
    · exact hwf
    · rename_i stroke heq
      refine ⟨fun s hs => hwf.1 s (List.dropLast_subset _ hs), fun s hs => ?_⟩
      rcases List.mem_append.mp hs with hmem | hmem
      · exact hwf.2 s hmem
      · rcases List.mem_singleton.mp hmem with rfl
        exact hwf.1 s (List.mem_of_mem_getLast? heq)

theorem begin_preserves_lists (d : DrawingLayer) (x y : ℚ) :
    (drawing_stroke_begin d x y).strokes = d.strokes ∧
    (drawing_stroke_begin d x y).redo_stack = d.redo_stack := by
  unfold drawing_stroke_begin
  split
  · exact ⟨rfl, rfl⟩
  · exact ⟨rfl, rfl⟩

theorem add_point_preserves_lists (d : DrawingLayer) (x y : ℚ) :
    (drawing_stroke_add_point d x y).strokes = d.strokes ∧
    (drawing_stroke_add_point d x y).redo_stack = d.redo_stack := by
  by_cases h1 : d.is_drawing = true ∧ d.current_stroke.isSome = true
  · rcases hc : d.current_stroke with _ | stroke
    · simp [drawing_stroke_add_point, h1, hc]
    · by_cases h2 : (x - d.last_canvas_x) * (x - d.last_canvas_x)
          + (y - d.last_canvas_y) * (y - d.last_canvas_y) < MIN_POINT_DISTANCE ^ 2
      · simp [drawing_stroke_add_point, h1, hc, h2]
      · simp [drawing_stroke_add_point, h1, hc, h2]
  · simp [drawing_stroke_add_point, h1]

theorem redo_preserves_wf (d : DrawingLayer) (hwf : StrokesWellFormed d) :
    StrokesWellFormed (drawing_redo_last d) := by
  unfold drawing_redo_last
  split
  · exact hwf
  · rename_i stroke heq
    refine ⟨fun s hs => ?_, fun s hs => hwf.2 s (List.dropLast_subset _ hs)⟩
    rcases List.mem_append.mp hs with hmem | hmem
    · exact hwf.1 s hmem
    · rcases List.mem_singleton.mp hmem with rfl
      exact hwf.2 s (List.mem_of_mem_getLast? heq)

/-- C7.  `stroke_end` discards an in-progress stroke with fewer than 2
points; otherwise it commits it at the tail of `strokes` and clears the
redo stack.  Consequently every drawing operation preserves the invariant
that all strokes in `strokes` and `redo_stack` carry at least 2 points, so
every committed stroke has at least 2 points and the redo stack is empty
immediately after any commit. -/
theorem stroke_end_commit_invariant (d : DrawingLayer) :
    (∀ s, d.is_drawing = true → d.current_stroke = some s →
        ((s.points.length < 2 →
            drawing_stroke_end d
              = { d with current_stroke := none, is_drawing := false })
         ∧ (2 ≤ s.points.length →
            drawing_stroke_end d
              = { d with strokes := d.strokes ++ [s], redo_stack := [],
                         current_stroke := none, is_drawing := false })))
    ∧ (∀ op, StrokesWellFormed d → StrokesWellFormed (applyDrawOp d op)) := by
  constructor
  · intro s hd hc
    constructor
    · intro hlen
      simp [drawing_stroke_end, hd, hc, hlen]
    · intro hlen
      simp [drawing_stroke_end, hd, hc, Nat.not_lt.mpr hlen]
  · intro op hwf
    cases op with
    | toggle_mode =>
        show StrokesWellFormed (drawing_toggle_mode d)
        simp only [drawing_toggle_mode]
        split
        · exact stroke_end_preserves_wf _ hwf
        · exact hwf
    | clear_all =>
        exact ⟨fun s hs => by simp [applyDrawOp, drawing_clear_all] at hs,
               fun s hs => by simp [applyDrawOp, drawing_clear_all] at hs⟩
    | undo_last => exact undo_preserves_wf d hwf
    | redo_last => exact redo_preserves_wf d hwf
    | stroke_begin x y =>
        have hp := begin_preserves_lists d x y
        exact ⟨fun s hs => hwf.1 s (by rw [applyDrawOp, hp.1] at hs; exact hs),
               fun s hs => hwf.2 s (by rw [applyDrawOp, hp.2] at hs; exact hs)⟩
    | stroke_add_point x y =>
        have hp := add_point_preserves_lists d x y
        exact ⟨fun s hs => hwf.1 s (by rw [applyDrawOp, hp.1] at hs; exact hs),
               fun s hs => hwf.2 s (by rw [applyDrawOp, hp.2] at hs; exact hs)⟩
    | stroke_end => exact stroke_end_preserves_wf d hwf

/-! ### Claim C8: the Euclidean distance filter for stroke points -/

theorem sqrt_lt_iff_sq_lt (dx dy : ℚ) :
    (Real.sqrt (((dx : ℝ))^2 + ((dy : ℝ))^2) < (MIN_POINT_DISTANCE : ℚ)) ↔
      dx * dx + dy * dy < MIN_POINT_DISTANCE ^ 2 := by
  have hcast : ((dx * dx + dy * dy : ℚ) : ℝ) = (dx : ℝ)^2 + (dy : ℝ)^2 := by
    push_cast
    ring
  have h2 : (0 : ℝ) < ((MIN_POINT_DISTANCE : ℚ) : ℝ) := by
    norm_num [MIN_POINT_DISTANCE]
  rw [Real.sqrt_lt' h2, ← hcast]
  constructor
  · intro h
    have := (Rat.cast_lt (K := ℝ)).mp (by exact_mod_cast h)
    exact_mod_cast this
  · intro h
    exact_mod_cast h

theorem sqrt_ge_iff_sq_ge (dx dy : ℚ) :
    (((MIN_POINT_DISTANCE : ℚ) : ℝ) ≤ Real.sqrt (((dx : ℝ))^2 + ((dy : ℝ))^2)) ↔
      MIN_POINT_DISTANCE ^ 2 ≤ dx * dx + dy * dy := by
  rw [← not_lt, sqrt_lt_iff_sq_lt, not_lt]

/-- C8.  `stroke_add_point` is a no-op when not drawing; while drawing it
appends the point exactly when its Euclidean distance from
`last_canvas_pos` is at least 2.0 canvas units, updating `last_canvas_pos`
on append.  In particular, the spec's scenario `begin (0,0); add (1,0);
add (3,0); end` commits a stroke whose points are exactly
`[(0,0), (3,0)]`. -/
theorem stroke_add_point_distance_filter (d : DrawingLayer) (x y : ℚ) :
    (d.is_drawing = false → drawing_stroke_add_point d x y = d)
    ∧ (∀ s, d.is_drawing = true → d.current_stroke = some s →
        ((Real.sqrt (((x - d.last_canvas_x : ℚ) : ℝ)^2 + ((y - d.last_canvas_y : ℚ) : ℝ)^2)
            < ((MIN_POINT_DISTANCE : ℚ) : ℝ) →
          drawing_stroke_add_point d x y = d)
        ∧ (((MIN_POINT_DISTANCE : ℚ) : ℝ)
            ≤ Real.sqrt (((x - d.last_canvas_x : ℚ) : ℝ)^2 + ((y - d.last_canvas_y : ℚ) : ℝ)^2) →
          drawing_stroke_add_point d x y
            = { d with
                current_stroke := some { s with points := s.points ++ [⟨x, y⟩] },
                last_canvas_x := x, last_canvas_y := y })))
    ∧ (drawing_stroke_end (drawing_stroke_add_point (drawing_stroke_add_point
          (drawing_stroke_begin { drawing_init with drawing_mode := true } 0 0) 1 0) 3 0)).strokes
        = [{ points := [⟨0, 0⟩, ⟨3, 0⟩], color := COLOR_RED }] := by
  refine ⟨fun h => ?_, fun s hd hc => ⟨fun hclose => ?_, fun hfar => ?_⟩,
    by norm_num [drawing_stroke_begin, drawing_stroke_add_point, drawing_stroke_end,
      drawing_init, MIN_POINT_DISTANCE]⟩
  · simp [drawing_stroke_add_point, h]
  · have hsq := (sqrt_lt_iff_sq_lt (x - d.last_canvas_x) (y - d.last_canvas_y)).mp
      (by exact_mod_cast hclose)
    simp [drawing_stroke_add_point, hd, hc, hsq]
  · have hsq : ¬ ((x - d.last_canvas_x) * (x - d.last_canvas_x)
        + (y - d.last_canvas_y) * (y - d.last_canvas_y) < MIN_POINT_DISTANCE ^ 2) := by
      intro hlt
      have := (sqrt_lt_iff_sq_lt (x - d.last_canvas_x) (y - d.last_canvas_y)).mpr hlt
      have hcontra : ((MIN_POINT_DISTANCE : ℚ) : ℝ) < ((MIN_POINT_DISTANCE : ℚ) : ℝ) :=
        lt_of_le_of_lt hfar (by exact_mod_cast this)
      exact lt_irrefl _ hcontra
    simp [drawing_stroke_add_point, hd, hc, hsq]

/-- Witness for C8: from a mid-stroke state at last position `(0, 0)`,
adding `(1, 0)` (distance 1) is filtered out and adding `(3, 0)`
(distance 3) is appended. -/
theorem stroke_add_point_distance_filter_witness :
    drawing_stroke_add_point
        { drawing_init with
            drawing_mode := true, is_drawing := true,
            current_stroke := some { points := [⟨0, 0⟩], color := COLOR_RED } } 1 0
      = { drawing_init with
            drawing_mode := true, is_drawing := true,
            current_stroke := some { points := [⟨0, 0⟩], color := COLOR_RED } }
    ∧ drawing_stroke_add_point
        { drawing_init with
            drawing_mode := true, is_drawing := true,
            current_stroke := some { points := [⟨0, 0⟩], color := COLOR_RED } } 3 0
      = { drawing_init with
            drawing_mode := true, is_drawing := true,
            current_stroke := some { points := [⟨0, 0⟩, ⟨3, 0⟩], color := COLOR_RED },
            last_canvas_x := 3, last_canvas_y := 0 } := by
  constructor
  · refine ((stroke_add_point_distance_filter
      { drawing_init with
          drawing_mode := true, is_drawing := true,
          current_stroke := some { points := [⟨0, 0⟩], color := COLOR_RED } } 1 0).2.1
      { points := [⟨0, 0⟩], color := COLOR_RED } rfl rfl).1 ?_
    exact (sqrt_lt_iff_sq_lt _ _).mpr (by norm_num [drawing_init, MIN_POINT_DISTANCE])
  · refine ((stroke_add_point_distance_filter
      { drawing_init with
          drawing_mode := true, is_drawing := true,
          current_stroke := some { points := [⟨0, 0⟩], color := COLOR_RED } } 3 0).2.1
      { points := [⟨0, 0⟩], color := COLOR_RED } rfl rfl).2 ?_
    exact (sqrt_ge_iff_sq_ge _ _).mpr (by norm_num [drawing_init, MIN_POINT_DISTANCE])

/-! ### Claim C4: the keybind table search does not exist in the code -/

/-- C4 (divergence witness).  The default keybind table binds
`alt + Tab` to `window_switcher` and `super + r` to `redo_stroke`, yet the
key handler leaves both presses unhandled (forwarded to the client), and no
`(modifiers, keysym)` press at all dispatches `redo_stroke`,
`gather_windows` or `window_switcher`: the handler is a hardcoded
Alt-modifier switch that never consults the configured table. -/
theorem keybinding_table_never_consulted :
    (⟨WLR_MODIFIER_ALT, XKB_KEY_Tab, .action, "window_switcher"⟩ : Keybind) ∈ default_keybinds
    ∧ keyboard_handle_keybinding WLR_MODIFIER_ALT XKB_KEY_Tab = none
    ∧ (⟨WLR_MODIFIER_LOGO, XKB_KEY_r, .action, "redo_stroke"⟩ : Keybind) ∈ default_keybinds
    ∧ keyboard_handle_keybinding WLR_MODIFIER_LOGO XKB_KEY_r = none
    ∧ (⟨WLR_MODIFIER_LOGO, XKB_KEY_g, .action, "gather_windows"⟩ : Keybind) ∈ default_keybinds
    ∧ keyboard_handle_keybinding WLR_MODIFIER_LOGO XKB_KEY_g = none
    ∧ (∀ modifiers sym,
        keyboard_handle_keybinding modifiers sym ≠ some .redo_stroke
        ∧ keyboard_handle_keybinding modifiers sym ≠ some .gather_windows
        ∧ keyboard_handle_keybinding modifiers sym ≠ some .window_switcher) := by
  refine ⟨by decide, by decide, by decide, by decide, by decide, by decide, ?_⟩
  intro modifiers sym
  unfold keyboard_handle_keybinding
  refine ⟨?_, ?_, ?_⟩ <;> split_ifs <;> simp

/-! ### Claim C5: destroyed views must disappear from switcher/grab state -/

/-- C5 (divergence witness).  Destroying the view the switcher currently
selects — even through the usual unmap-then-destroy sequence — leaves
`switcher_selected` still pointing at the removed view: the claimed
clearing of the switcher's reference does not exist in the code.  The
`grabbed_view` half of the claim does hold: `handle_unmap` clears the grab
and resets the cursor mode to PASSTHROUGH. -/
theorem destroyed_view_remains_selected :
    (view_destroy (handle_unmap
        { views := [⟨1, false, 1, false⟩, ⟨2, false, 1, false⟩],
          grabbed_view := none, cursor_mode := .passthrough,
          switcher_active := true, switcher_selected := some 2 } 2) 2).switcher_selected
      = some 2
    ∧ (∀ v ∈ (view_destroy (handle_unmap
        { views := [⟨1, false, 1, false⟩, ⟨2, false, 1, false⟩],
          grabbed_view := none, cursor_mode := .passthrough,
          switcher_active := true, switcher_selected := some 2 } 2) 2).views,
        v.id ≠ 2)
    ∧ (handle_unmap
        { views := [⟨1, false, 1, false⟩, ⟨2, true, 1, false⟩],
          grabbed_view := some 2, cursor_mode := .move,
          switcher_active := false, switcher_selected := none } 2).grabbed_view = none
    ∧ (handle_unmap
        { views := [⟨1, false, 1, false⟩, ⟨2, true, 1, false⟩],
          grabbed_view := some 2, cursor_mode := .move,
          switcher_active := false, switcher_selected := none } 2).cursor_mode
      = CursorMode.passthrough := by
  refine ⟨?_, ?_, ?_, ?_⟩ <;> norm_num [view_destroy, handle_unmap]

/-! ### Claim C3: the two-window gather scenario -/

theorem sqrt_22500 : Real.sqrt 22500 = 150 := by
  rw [show (22500 : ℝ) = 150 ^ 2 by norm_num]
  exact Real.sqrt_sq (by norm_num)

theorem gather_v1_eval :
    gather_move_view 200 50 20 ⟨0, 0, 100, 100⟩ = ⟨75, 0, 100, 100⟩ := by
  norm_num [gather_move_view, sqrt_22500, GView.mk.injEq]

theorem gather_v2_eval :
    gather_move_view 200 50 20 ⟨300, 0, 100, 100⟩ = ⟨225, 0, 100, 100⟩ := by
  norm_num [gather_move_view, sqrt_22500, GView.mk.injEq]

theorem views_gather_two_eval :
    views_gather [⟨0, 0, 100, 100⟩, ⟨300, 0, 100, 100⟩] 20
      = [⟨75, 0, 100, 100⟩, ⟨225, 0, 100, 100⟩] := by
  have h1 := gather_v1_eval
  have h2 := gather_v2_eval
  norm_num [views_gather]
  exact ⟨h1, h2⟩

/-- C3 counterexample.  On views V1 = (0,0) 100x100 and V2 = (300,0)
100x100 with minimum_gap 20, one gather step puts the view origins at
x = 75 and x = 225 — not at the claimed 80 and 220: halving the
centre-to-centroid distance gives 75, which already exceeds the clamp
50 + 20 = 70, so the clamp does not bind. -/
theorem gather_two_windows_claim_false :
    (views_gather [⟨0, 0, 100, 100⟩, ⟨300, 0, 100, 100⟩] 20).map GView.x = [75, 225]
    ∧ ¬ ((views_gather [⟨0, 0, 100, 100⟩, ⟨300, 0, 100, 100⟩] 20).map GView.x
          = [80, 220]) := by
  rw [views_gather_two_eval]
  norm_num

/-- C3 amended.  One gather step on V1 = (0,0) 100x100 and V2 = (300,0)
100x100 with minimum_gap 20 sets V1.x = 75 and V2.x = 225 (each centre
moves to distance max(150·0.5, 50+20) = 75 from the centroid (200,50)),
the y positions stay 0, and the viewport snap target centres the final
centroid (200, 50) on screen: `target = (200, 50) - (screen/2) / scale`
at scale 1. -/
theorem gather_two_windows_amended (screen_width screen_height : ℤ) :
    (views_gather [⟨0, 0, 100, 100⟩, ⟨300, 0, 100, 100⟩] 20).map GView.x = [75, 225]
    ∧ (views_gather [⟨0, 0, 100, 100⟩, ⟨300, 0, 100, 100⟩] 20).map GView.y = [0, 0]
    ∧ views_gather_snap_target [⟨0, 0, 100, 100⟩, ⟨300, 0, 100, 100⟩] 20 1
        screen_width screen_height
      = (200 - ((screen_width : ℝ) / 2) / 1, 50 - ((screen_height : ℝ) / 2) / 1) := by
  refine ⟨?_, ?_, ?_⟩
  · rw [views_gather_two_eval]
    simp [List.map]
  · rw [views_gather_two_eval]
    simp [List.map]
  · simp only [views_gather_snap_target, views_gather_two_eval]
    norm_num

end Infinidesk